import Mathlib

/-!
Verification of the session / knowledge-base / backend-dispatch layer of the
simplechatbot repository.  The Python sources `chat_logic.py`, `llm_handler.py`
and `huggingface_handler.py` are shallowly embedded below: chat history is a
`List Message`, the knowledge base is a record of the general list plus an
insertion-ordered association list of category buckets (modelling a Python
dict), and fallible code (a raised exception) is modelled with `Except`.
Python's negative list slice `l[-k:]` and string truthiness are reproduced
exactly where they matter.
-/

/-- Message roles, as the strings "system" / "user" / "assistant" in the source. -/
inductive Role where
  | system
  | user
  | assistant
deriving DecidableEq

/-- One chat message: the dict `{"role": r, "content": c}` of the source. -/
structure Message where
  role : Role
  content : String
deriving DecidableEq

/-- Role of `history[0]`, `none` when the history is empty. -/
def headRole (h : List Message) : Option Role :=
  h.head?.map Message.role

/-- The `1 if history[0].role == system else 0` term of the history-bound formula. -/
def sysCount (h : List Message) : Nat :=
  if headRole h = some Role.system then 1 else 0

/-- Python's `l[-(k):]`.  For `k = 0` the slice is `l[0:]`, i.e. the whole
list; for `k > 0` it is the last `min k (length l)` elements. -/
def pySliceLast (k : Nat) (l : List Message) : List Message :=
  if k = 0 then l else l.drop (l.length - k)

/-- `ChatSession.add_message` (chat_logic.py lines 162-178): append the new
message; if `len(history) > max_history + 1` trim, keeping `history[0]` when
it is the system message and in both cases keeping `history[-(max_history):]`. -/
def addMessage (maxH : Nat) (history : List Message) (role : Role) (content : String) : List Message :=
  if maxH + 1 < (history ++ [Message.mk role content]).length then
    if headRole (history ++ [Message.mk role content]) = some Role.system then
      (history ++ [Message.mk role content]).take 1 ++ pySliceLast maxH (history ++ [Message.mk role content])
    else pySliceLast maxH (history ++ [Message.mk role content])
  else history ++ [Message.mk role content]

/-- A sequence of `add_message` calls, oldest first. -/
def addList (maxH : Nat) (h : List Message) : List (Role × String) → List Message
  | [] => h
  | rc :: rest => addList maxH (addMessage maxH h rc.1 rc.2) rest

/-- The knowledge store `{"general": [...], "categories": {...}}` of
`KnowledgeManager`; the dict of category buckets is an insertion-ordered
association list, as Python dicts preserve insertion order. -/
structure Knowledge where
  general : List String
  categories : List (String × List String)
deriving DecidableEq

/-- The knowledge base created when no file exists: `{"general": [], "categories": {}}`. -/
def emptyKB : Knowledge := Knowledge.mk [] []

/-- Python dict lookup `categories[c]` / membership `c in categories`. -/
def bucketFind : List (String × List String) → String → Option (List String)
  | [], _ => none
  | (k, items) :: rest, c => if k = c then some items else bucketFind rest c

/-- Ensure bucket `c` exists, then append `content` to it: the
`if category not in ...: ... = []` plus `append` steps of `add_knowledge`.
A new key lands at the end, as in a Python dict. -/
def bucketAppend : List (String × List String) → String → String → List (String × List String)
  | [], c, content => [(c, [content])]
  | (k, items) :: rest, c, content =>
    if k = c then (k, items ++ [content]) :: rest
    else (k, items) :: bucketAppend rest c content

/-- Length of bucket `c` (empty when absent). -/
def bucketLen (kb : Knowledge) (c : String) : Nat :=
  ((bucketFind kb.categories c).getD []).length

/-- The `else` branch of `get_knowledge`: `general` copied, then every
category bucket appended in dict insertion order. -/
def allKnowledge (kb : Knowledge) : List String :=
  kb.general ++ (kb.categories.map Prod.snd).flatten

/-- Python truthiness of the optional `category` argument: `None` and the
empty string are falsy. -/
def truthy : Option String → Bool
  | none => false
  | some s => s != ""

/-- `KnowledgeManager.get_knowledge` (chat_logic.py lines 56-74):
`if category and category in categories: return bucket; elif category:
return []; else: return all`. -/
def getKnowledge (kb : Knowledge) (category : Option String) : List String :=
  match category with
  | some c =>
    if c = "" then allKnowledge kb
    else
      match bucketFind kb.categories c with
      | some items => items
      | none => []
  | none => allKnowledge kb

/-- `KnowledgeManager.add_knowledge` (chat_logic.py lines 33-54): append to
the named bucket (created if absent) or to `general` when the category is
falsy, and return the id `f"{bucket}_{len(bucket) - 1}"` computed after the
append.  Persistence (`save_knowledge`) is I/O and outside the claims. -/
def addKnowledge (kb : Knowledge) (content : String) (category : Option String) : String × Knowledge :=
  match category with
  | some c =>
    if c = "" then
      ("general_" ++ Nat.repr ((kb.general ++ [content]).length - 1),
       Knowledge.mk (kb.general ++ [content]) kb.categories)
    else
      (c ++ "_" ++ Nat.repr (((bucketFind (bucketAppend kb.categories c content) c).getD []).length - 1),
       Knowledge.mk kb.general (bucketAppend kb.categories c content))
  | none =>
    ("general_" ++ Nat.repr ((kb.general ++ [content]).length - 1),
     Knowledge.mk (kb.general ++ [content]) kb.categories)

/-- Consecutive `add_knowledge` calls to the same category, returning the ids
in call order. -/
def addSeq : Knowledge → String → List String → List String
  | _, _, [] => []
  | kb, c, x :: xs =>
    (addKnowledge kb x (some c)).1 :: addSeq (addKnowledge kb x (some c)).2 c xs

/-- The `f"{i}. {item}\n"` lines of `format_for_prompt`, numbered from `i`. -/
def numberedLines (i : Nat) : List String → String
  | [] => ""
  | x :: xs => Nat.repr i ++ ". " ++ x ++ "\n" ++ numberedLines (i + 1) xs

/-- `KnowledgeManager.format_for_prompt` (chat_logic.py lines 76-99) with its
default `max_items = 5`. -/
def formatForPrompt (kb : Knowledge) (category : Option String) (maxItems : Nat) : String :=
  let items := getKnowledge kb category
  let items2 := if maxItems < items.length then items.take maxItems else items
  if items2.isEmpty then ""
  else "Here is important information you should know:\n\n" ++ numberedLines 1 items2

/-- The system-prompt text computed by `ChatSession.update_system_prompt`:
base prompt, plus a blank line and the knowledge text when the latter is
non-empty. -/
def computeSystemPrompt (basePrompt : String) (kb : Knowledge) (category : Option String) : String :=
  if formatForPrompt kb category 5 = "" then basePrompt
  else basePrompt ++ "\n\n" ++ formatForPrompt kb category 5

/-- `ChatSession.update_system_prompt` (chat_logic.py lines 138-156): replace
the content of an existing index-0 system message, otherwise insert the
system message at index 0. -/
def updateSystemPrompt (basePrompt : String) (kb : Knowledge) (category : Option String) (history : List Message) : List Message :=
  match history with
  | m :: rest =>
    if m.role = Role.system then Message.mk Role.system (computeSystemPrompt basePrompt kb category) :: rest
    else Message.mk Role.system (computeSystemPrompt basePrompt kb category) :: m :: rest
  | [] => [Message.mk Role.system (computeSystemPrompt basePrompt kb category)]

/-- `ChatSession.clear_history` (chat_logic.py lines 205-214): keep just the
index-0 system message when present, otherwise reset to empty and re-add the
system prompt via `update_system_prompt()`. -/
def clearHistory (basePrompt : String) (kb : Knowledge) (history : List Message) : List Message :=
  match history with
  | m :: _ =>
    if m.role = Role.system then [Message.mk Role.system m.content]
    else updateSystemPrompt basePrompt kb none []
  | [] => updateSystemPrompt basePrompt kb none []

/-- `ChatSession.get_response` (chat_logic.py lines 180-203) with the backend
call abstracted as `gen`: update the system prompt when `category` is truthy,
append the user message, generate, append the assistant message, return the
new history and the response. -/
def getResponse (gen : List Message → String) (maxH : Nat) (basePrompt : String) (kb : Knowledge) (history : List Message) (userInput : String) (category : Option String) : List Message × String :=
  let h0 := if truthy category then updateSystemPrompt basePrompt kb category history else history
  let h1 := addMessage maxH h0 Role.user userInput
  let resp := gen h1
  (addMessage maxH h1 Role.assistant resp, resp)

/-- `LLMHandler._generate_with_transformers` (llm_handler.py lines 291-312).
The pipeline is `none` when `load_model` never succeeded; in that case the
function raises `ValueError` BEFORE its try block, modelled as
`Except.error`.  A loaded pipeline is a function that either produces text or
raises during generation (`Except Unit String`); an exception inside the try
block is caught and converted to the apology text. -/
def generateWithTransformers (sysPrompt : String) (pipe : Option (List Message → Except Unit String)) (messages : List Message) : Except String String :=
  match pipe with
  | none => Except.error "Model not loaded, please call load_model() first"
  | some p =>
    match p (if headRole messages = some Role.system then messages
             else Message.mk Role.system sysPrompt :: messages) with
    | Except.ok r => Except.ok r
    | Except.error _ => Except.ok "Sorry, an error occurred while generating a response."

/-- `ChatSession.get_response` when the configured backend is the
Transformers pipeline: a raised exception propagates (the assistant message
is then never appended), a returned text is appended as the assistant turn. -/
def getResponseT (maxH : Nat) (basePrompt : String) (kb : Knowledge) (pipe : Option (List Message → Except Unit String)) (history : List Message) (userInput : String) (category : Option String) : Except String (List Message × String) :=
  match generateWithTransformers basePrompt pipe
      (addMessage maxH (if truthy category then updateSystemPrompt basePrompt kb category history else history) Role.user userInput) with
  | Except.error e => Except.error e
  | Except.ok resp =>
    Except.ok (addMessage maxH
        (addMessage maxH (if truthy category then updateSystemPrompt basePrompt kb category history else history) Role.user userInput)
        Role.assistant resp, resp)

/-- JSON values, as decoded by `response.json()` in the hosted-API adapters. -/
inductive Json where
  | str (s : String)
  | num (n : Int)
  | bool (b : Bool)
  | null
  | list (xs : List Json)
  | obj (fields : List (String × Json))

/-- Field access on a decoded JSON object (`result["k"]` / `"k" in result`). -/
def Json.getField : List (String × Json) → String → Option Json
  | [], _ => none
  | (k, v) :: rest, c => if k = c then some v else Json.getField rest c

/-- Python whitespace for `str.strip()`. -/
def pyIsSpace (c : Char) : Bool :=
  c = ' ' || c = '\t' || c = '\n' || c = '\r' || c = '\x0b' || c = '\x0c'

/-- Python `str.strip()` on a character list. -/
def pyStrip (l : List Char) : List Char :=
  (((l.dropWhile pyIsSpace).reverse).dropWhile pyIsSpace).reverse

/-- The suffix after the first occurrence of `pat`, `none` when `pat` does
not occur: Python `s.split(pat, 1)[1]` guarded by `pat in s`. -/
def afterFirst (pat : List Char) : List Char → Option (List Char)
  | [] => if pat.isEmpty then some [] else none
  | c :: rest =>
    if pat.isPrefixOf (c :: rest) then some (List.drop pat.length (c :: rest))
    else afterFirst pat rest

/-- The delimiter cleanup of the hosted-API adapters: `if "[/INST]" in t:
t = t.split("[/INST]", 1)[1].strip()`. -/
def stripInst (t : String) : String :=
  match afterFirst ("[/INST]".toList) t.toList with
  | some rest => String.mk (pyStrip rest)
  | none => t

/-- Outcome of parsing a status-200 hosted-API body: extracted text, the
generic fallback message, or an exception raised while handling a non-string
`generated_text` value (caught further out by the adapter's `except`). -/
inductive HFParse where
  | text (s : String)
  | fallback
  | exc
deriving DecidableEq

/-- The response-shape dispatch of `LLMHandler._generate_with_huggingface_api`
(llm_handler.py lines 359-389) and the identical
`HuggingFaceHandler.generate_response` (huggingface_handler.py lines
122-152), applied to the decoded body of a status-200 response: a plain
string is returned as-is; a non-empty list whose first element is a string is
returned as-is; a first-element dict or a top-level dict is consulted only
for `generated_text` (with `[/INST]`-artifact stripping); every other shape
reaches the `Unable to parse` fallback. -/
def genFromResult : Json → HFParse
  | Json.str s => HFParse.text s
  | Json.list [] => HFParse.fallback
  | Json.list (Json.str s :: _) => HFParse.text s
  | Json.list (Json.obj fs :: _) =>
    match Json.getField fs "generated_text" with
    | some (Json.str g) => HFParse.text (stripInst g)
    | some _ => HFParse.exc
    | none => HFParse.fallback
  | Json.list (_ :: _) => HFParse.fallback
  | Json.obj fs =>
    match Json.getField fs "generated_text" with
    | some (Json.str g) => HFParse.text (stripInst g)
    | some _ => HFParse.exc
    | none => HFParse.fallback
  | _ => HFParse.fallback

/-! ## Helper lemmas -/

theorem addMessage_keeps_system (maxH : Nat) (h : List Message) (r : Role) (c : String)
    (hs : headRole h = some Role.system) :
    headRole (addMessage maxH h r c) = some Role.system := by
  cases h with
  | nil => simp [headRole] at hs
  | cons m hs' =>
    have hm : m.role = Role.system := by
      simpa [headRole] using hs
    unfold addMessage
    simp only [List.cons_append]
    split
    next hlen =>
      rw [if_pos (by simp [headRole, hm])]
      simp [headRole, hm]
    next hlen =>
      simp [headRole, hm]

theorem addMessage_length_le (maxH : Nat) (hmax : 1 ≤ maxH) (h : List Message) (r : Role) (c : String)
    (hs : headRole h = some Role.system) :
    (addMessage maxH h r c).length ≤ maxH + 1 := by
  cases h with
  | nil => simp [headRole] at hs
  | cons m hs' =>
    have hm : m.role = Role.system := by
      simpa [headRole] using hs
    have h0 : maxH ≠ 0 := by omega
    unfold addMessage
    simp only [List.cons_append]
    split
    next hlen =>
      rw [if_pos (by simp [headRole, hm])]
      have hps : pySliceLast maxH (m :: (hs' ++ [Message.mk r c])) =
          (m :: (hs' ++ [Message.mk r c])).drop ((m :: (hs' ++ [Message.mk r c])).length - maxH) := by
        simp [pySliceLast, h0]
      rw [hps]
      simp only [List.take_succ_cons, List.take_zero, List.singleton_append, List.length_cons,
        List.length_append, List.length_drop] at hlen ⊢
      omega
    next hlen =>
      simp only [List.length_cons, List.length_append] at hlen ⊢
      omega

theorem addList_system_inv (maxH : Nat) (hmax : 1 ≤ maxH) :
    ∀ (pre : List (Role × String)) (h : List Message), headRole h = some Role.system →
      headRole (addList maxH h pre) = some Role.system ∧
        (pre ≠ [] → (addList maxH h pre).length ≤ maxH + 1) := by
  intro pre
  induction pre with
  | nil =>
    intro h hs
    exact ⟨hs, fun hne => absurd rfl hne⟩
  | cons rc rest ih =>
    intro h hs
    have hstep := addMessage_keeps_system maxH h rc.1 rc.2 hs
    have hrec := ih (addMessage maxH h rc.1 rc.2) hstep
    refine ⟨hrec.1, fun _ => ?_⟩
    cases rest with
    | nil =>
      simpa [addList] using addMessage_length_le maxH hmax h rc.1 rc.2 hs
    | cons rc2 rest2 =>
      simpa [addList] using hrec.2 (by simp)

theorem bucketFind_bucketAppend (cats : List (String × List String)) (c x : String) :
    bucketFind (bucketAppend cats c x) c = some ((bucketFind cats c).getD [] ++ [x]) := by
  induction cats with
  | nil => simp [bucketAppend, bucketFind]
  | cons p rest ih =>
    obtain ⟨k, items⟩ := p
    by_cases hk : k = c
    · subst hk
      simp [bucketAppend, bucketFind]
    · simp [bucketAppend, bucketFind, hk, ih]

theorem addSeq_ids (c : String) (hc : c ≠ "") (contents : List String) :
    ∀ kb : Knowledge, addSeq kb c contents =
      (List.range contents.length).map (fun i => c ++ "_" ++ Nat.repr (bucketLen kb c + i)) := by
  induction contents with
  | nil => intro kb; simp [addSeq]
  | cons x xs ih =>
    intro kb
    have hid : (addKnowledge kb x (some c)).1 = c ++ "_" ++ Nat.repr (bucketLen kb c) := by
      simp [addKnowledge, hc, bucketFind_bucketAppend, bucketLen]
    have hkb : bucketLen (addKnowledge kb x (some c)).2 c = bucketLen kb c + 1 := by
      simp [addKnowledge, hc, bucketLen, bucketFind_bucketAppend]
    have hstep : addSeq kb c (x :: xs) =
        (addKnowledge kb x (some c)).1 :: addSeq (addKnowledge kb x (some c)).2 c xs := rfl
    rw [hstep, hid, ih (addKnowledge kb x (some c)).2, hkb]
    simp only [List.length_cons]
    rw [List.range_succ_eq_map, List.map_cons, List.map_map]
    refine congrArg₂ List.cons (by simp) ?_
    apply List.map_congr_left
    intro i _
    have hn : bucketLen kb c + 1 + i = bucketLen kb c + Nat.succ i := by omega
    simp [Function.comp, hn]

theorem gwt_some_ok (sp : String) (p : List Message → Except Unit String) (msgs : List Message) :
    ∃ t, generateWithTransformers sp (some p) msgs = Except.ok t := by
  simp only [generateWithTransformers]
  cases hp : p (if headRole msgs = some Role.system then msgs else Message.mk Role.system sp :: msgs) with
  | ok r => exact ⟨r, rfl⟩
  | error e => exact ⟨"Sorry, an error occurred while generating a response.", rfl⟩

/-! ## Claims -/

/-- C1, counterexample: with `max_history = 0` the Python slice
`history[-(0):]` is the whole list, so one `add_message` on the initial
`[system "S"]` history yields `[system "S", system "S", user "x"]` and the
bound `len(history) - 1 <= max_history` fails. -/
theorem addMessage_cap_zero_violation :
    addMessage 0 [Message.mk Role.system "S"] Role.user "x" =
      [Message.mk Role.system "S", Message.mk Role.system "S", Message.mk Role.user "x"] ∧
    ¬ ((addMessage 0 [Message.mk Role.system "S"] Role.user "x").length -
        sysCount (addMessage 0 [Message.mk Role.system "S"] Role.user "x") ≤ 0) := by
  decide

/-- C1, amended: for `max_history ≥ 1`, for every sequence of `add_message`
calls starting from a history whose index-0 message is the system message (as
ChatSession construction guarantees), after each call the message count
excluding the system message satisfies the bound, and the system message is
retained at index 0. -/
theorem addMessage_history_bound (maxH : Nat) (h : List Message) (pre : List (Role × String))
    (hmax : 1 ≤ maxH) (hs : headRole h = some Role.system) (hne : pre ≠ []) :
    (addList maxH h pre).length - sysCount (addList maxH h pre) ≤ maxH ∧
      headRole (addList maxH h pre) = some Role.system := by
  have hinv := addList_system_inv maxH hmax pre h hs
  have hlen := hinv.2 hne
  refine ⟨?_, hinv.1⟩
  simp [sysCount, hinv.1]
  omega

/-- C1 witness: max_history 2, initial history `[system "S"]`, one call. -/
theorem addMessage_history_bound_witness :
    (addList 2 [Message.mk Role.system "S"] [(Role.user, "a")]).length -
      sysCount (addList 2 [Message.mk Role.system "S"] [(Role.user, "a")]) ≤ 2 ∧
    headRole (addList 2 [Message.mk Role.system "S"] [(Role.user, "a")]) = some Role.system :=
  addMessage_history_bound 2 [Message.mk Role.system "S"] [(Role.user, "a")]
    (by decide) (by decide) (by decide)

/-- C2: with max_history 2 and system prompt "S", after the three turns
user "a" → "A", user "b" → "B", user "c" → "C" the history is exactly
`[system "S", user "c", assistant "C"]`. -/
theorem get_response_three_turns :
    (getResponse (fun _ => "C") 2 "S" emptyKB
      (getResponse (fun _ => "B") 2 "S" emptyKB
        (getResponse (fun _ => "A") 2 "S" emptyKB
          [Message.mk Role.system "S"] "a" none).1 "b" none).1 "c" none).1 =
    [Message.mk Role.system "S", Message.mk Role.user "c", Message.mk Role.assistant "C"] := by
  decide

/-- C3, counterexample: the Transformers adapter raises `ValueError` before
its try block when the pipeline was never loaded, so that failure is NOT
converted into a user-facing text result: it propagates out of
`generate_response` and out of `get_response`, and no assistant message is
appended. -/
theorem transformers_unloaded_propagates :
    generateWithTransformers "S" none [Message.mk Role.user "hi"] =
      Except.error "Model not loaded, please call load_model() first" ∧
    getResponseT 10 "S" emptyKB none [Message.mk Role.system "S"] "hi" none =
      Except.error "Model not loaded, please call load_model() first" :=
  ⟨rfl, rfl⟩

/-- C3, amended: once the Transformers pipeline is loaded, every failure
raised during generation is caught and converted to the apology text, and
`get_response` always succeeds, appending the user message and then the
(possibly degraded) assistant message, so alternation is preserved. -/
theorem transformers_loaded_failures_converted (maxH : Nat) (bp : String) (kb : Knowledge)
    (p : List Message → Except Unit String) (history : List Message) (input : String)
    (category : Option String) :
    ∃ resp : String, getResponseT maxH bp kb (some p) history input category =
      Except.ok (addMessage maxH
        (addMessage maxH (if truthy category then updateSystemPrompt bp kb category history else history)
          Role.user input) Role.assistant resp, resp) := by
  obtain ⟨t, ht⟩ := gwt_some_ok bp p
    (addMessage maxH (if truthy category then updateSystemPrompt bp kb category history else history)
      Role.user input)
  exact ⟨t, by unfold getResponseT; rw [ht]⟩

/-- C4, counterexample: a status-200 body that decodes to the single object
`{"content": "hi"}` is NOT extracted to "hi"; the adapter reaches the generic
fallback message instead. -/
theorem hf_parse_content_fallback :
    genFromResult (Json.obj [("content", Json.str "hi")]) = HFParse.fallback ∧
    HFParse.fallback ≠ HFParse.text "hi" := by
  decide

/-- C4, amended: the shapes the adapter actually extracts text from are a
plain string, a non-empty list whose first element is a string or an object
with a string `generated_text` field, and a single object with a string
`generated_text` field (the last two with `[/INST]` stripping); objects
carrying only `content` or nested `message.content` are not extracted and
fall to the generic fallback, as does every other shape. -/
theorem hf_parse_shapes :
    (∀ s : String, genFromResult (Json.str s) = HFParse.text s) ∧
    (∀ (s : String) (rest : List Json), genFromResult (Json.list (Json.str s :: rest)) = HFParse.text s) ∧
    (∀ (fs : List (String × Json)) (rest : List Json) (g : String),
      Json.getField fs "generated_text" = some (Json.str g) →
      genFromResult (Json.list (Json.obj fs :: rest)) = HFParse.text (stripInst g)) ∧
    (∀ (fs : List (String × Json)) (g : String),
      Json.getField fs "generated_text" = some (Json.str g) →
      genFromResult (Json.obj fs) = HFParse.text (stripInst g)) ∧
    genFromResult (Json.list []) = HFParse.fallback ∧
    genFromResult (Json.obj [("content", Json.str "hi")]) = HFParse.fallback ∧
    genFromResult (Json.obj [("message", Json.obj [("content", Json.str "hi")])]) = HFParse.fallback ∧
    genFromResult (Json.list [Json.obj [("content", Json.str "hi")]]) = HFParse.fallback ∧
    genFromResult Json.null = HFParse.fallback := by
  refine ⟨fun s => rfl, fun s rest => rfl, ?_, ?_, rfl, by decide, by decide, by decide, rfl⟩
  · intro fs rest g hg
    simp [genFromResult, hg]
  · intro fs g hg
    simp [genFromResult, hg]

/-- C4 witness: a concrete object with a `generated_text` field, parsed
through the amended theorem. -/
theorem hf_parse_shapes_witness :
    genFromResult (Json.obj [("generated_text", Json.str "x [/INST] y")]) =
      HFParse.text (stripInst "x [/INST] y") :=
  hf_parse_shapes.2.2.2.1 [("generated_text", Json.str "x [/INST] y")] "x [/INST] y" rfl

/-- C5: `clear_history` always leaves exactly one message, and that message
has role system: the prior index-0 system message is kept, otherwise the
system prompt is recomputed and installed. -/
theorem clear_history_one_system (bp : String) (kb : Knowledge) (h : List Message) :
    (clearHistory bp kb h).length = 1 ∧ headRole (clearHistory bp kb h) = some Role.system := by
  cases h with
  | nil => simp [clearHistory, updateSystemPrompt, headRole]
  | cons m rest =>
    by_cases hm : m.role = Role.system
    · simp [clearHistory, hm, headRole]
    · simp [clearHistory, hm, updateSystemPrompt, headRole]

/-- C6: for every non-empty category name that is not a key of the categories
mapping, `get_knowledge` returns the empty list (no failure). -/
theorem get_knowledge_unknown_empty (kb : Knowledge) (c : String)
    (hc : c ≠ "") (habsent : bucketFind kb.categories c = none) :
    getKnowledge kb (some c) = [] := by
  simp [getKnowledge, hc, habsent]

/-- C6 witness: category "b" is unknown in a knowledge base holding only
bucket "a". -/
theorem get_knowledge_unknown_empty_witness :
    getKnowledge (Knowledge.mk ["g"] [("a", ["x"])]) (some "b") = [] :=
  get_knowledge_unknown_empty (Knowledge.mk ["g"] [("a", ["x"])]) "b" (by decide) (by decide)

/-- C7: ids returned by `add_knowledge` reflect insertion order: a run of
consecutive adds to non-empty category `c` returns `c_m, c_m+1, ...` starting
at the current bucket size `m` (so they are unique within the bucket and the
n-th add to the bucket returns `c_(n-1)`); the general bucket behaves the
same way; and three adds to the empty "facts" bucket return exactly
`facts_0, facts_1, facts_2`. -/
theorem add_knowledge_ids (kb : Knowledge) (c : String) (contents : List String) (hc : c ≠ "") :
    addSeq kb c contents =
      (List.range contents.length).map (fun i => c ++ "_" ++ Nat.repr (bucketLen kb c + i)) ∧
    (∀ (kb2 : Knowledge) (x : String),
      (addKnowledge kb2 x none).1 = "general_" ++ Nat.repr kb2.general.length) ∧
    addSeq emptyKB "facts" ["fact one", "fact two", "fact three"] =
      ["facts_0", "facts_1", "facts_2"] := by
  refine ⟨addSeq_ids c hc contents kb, ?_, by decide⟩
  intro kb2 x
  simp [addKnowledge]

/-- C7 witness: one add to the empty "facts" bucket. -/
theorem add_knowledge_ids_witness :
    addSeq emptyKB "facts" ["a"] =
      (List.range (["a"] : List String).length).map
        (fun i => "facts" ++ "_" ++ Nat.repr (bucketLen emptyKB "facts" + i)) :=
  (add_knowledge_ids emptyKB "facts" ["a"] (by decide)).1

/-- C8: a status-200 body decoding to
`{"generated_text": "... [/INST] real answer"}` is returned as exactly
"real answer": the text up to and including the `[/INST]` delimiter is cut
and the remainder whitespace-stripped. -/
theorem hf_strip_inst_scenario :
    genFromResult (Json.obj [("generated_text", Json.str "... [/INST] real answer")]) =
      HFParse.text "real answer" := by
  decide

/-- C9: with an unchanged knowledge base and category, `update_system_prompt`
is idempotent: a second call changes nothing, and after each call
`history[0].content` is the same computed system prompt. -/
theorem update_system_prompt_idempotent (bp : String) (kb : Knowledge) (cat : Option String)
    (h : List Message) :
    updateSystemPrompt bp kb cat (updateSystemPrompt bp kb cat h) = updateSystemPrompt bp kb cat h ∧
    (updateSystemPrompt bp kb cat h).head?.map Message.content =
      some (computeSystemPrompt bp kb cat) := by
  cases h with
  | nil => simp [updateSystemPrompt]
  | cons m rest =>
    by_cases hm : m.role = Role.system
    · simp [updateSystemPrompt, hm]
    · simp [updateSystemPrompt, hm]

/-- C10: the empty-string category is everywhere treated as category-omitted:
`get_knowledge` returns the full general-plus-buckets concatenation (not the
unknown-category empty list; witnessed concretely to be non-empty), and
`get_response` with the empty-string category behaves exactly as with the
category omitted, in particular never recomputing the system prompt. -/
theorem empty_category_as_omitted :
    (∀ kb : Knowledge, getKnowledge kb (some "") = kb.general ++ (kb.categories.map Prod.snd).flatten) ∧
    (∀ kb : Knowledge, getKnowledge kb (some "") = getKnowledge kb none) ∧
    getKnowledge (Knowledge.mk ["g"] []) (some "") ≠ [] ∧
    (∀ (gen : List Message → String) (maxH : Nat) (bp : String) (kb : Knowledge)
       (h : List Message) (input : String),
      getResponse gen maxH bp kb h input (some "") = getResponse gen maxH bp kb h input none) := by
  refine ⟨fun kb => rfl, fun kb => rfl, by decide, ?_⟩
  intro gen maxH bp kb h input
  rfl
